import Mathlib

/-!
Verification model of the BaaLS ledger core (Rust sources under src/).

The Rust code is shallowly embedded: machine integers become `Nat` (no claim
here depends on wrap-around), fallible paths return `Except`/`Option`, and the
sled database becomes a record of association-list keyspaces.  SHA-256 and
Ed25519 are kept abstract: hashing is a function parameter and signature
verification a boolean-valued parameter, since no claim depends on the
internals of either primitive.
-/

namespace BaaLS

/-- Byte strings (each entry is one byte value). -/
abbrev Bytes := List Nat

/-- UTF-8 bytes of an ASCII string literal (models Rust `str::as_bytes`). -/
def strBytes (s : String) : Bytes := s.data.map Char.toNat

/-- Little-endian 8-byte encoding of a `u64` (bincode fixed-int encoding). -/
def u64le (n : Nat) : Bytes :=
  [n % 256, n / 256 % 256, n / 256 ^ 2 % 256, n / 256 ^ 3 % 256,
   n / 256 ^ 4 % 256, n / 256 ^ 5 % 256, n / 256 ^ 6 % 256, n / 256 ^ 7 % 256]

/-- ASCII code of the lowercase hex digit for `d < 16` (models `hex::encode`). -/
def hexDigit (d : Nat) : Nat := if d < 10 then 48 + d else 87 + d

/-- Two lowercase hex digits of one byte. -/
def hexByte (b : Nat) : Bytes := [hexDigit (b / 16), hexDigit (b % 16)]

/-- Lowercase hex encoding of a byte string, as ASCII bytes. -/
def hexBytes (bs : Bytes) : Bytes := (bs.map hexByte).flatten

/-- Decimal digits of a natural number as ASCII bytes. -/
def natDecimal (n : Nat) : Bytes := (Nat.toDigits 10 n).map Char.toNat

/-- Left-pad with ASCII zeros to width `w` (models Rust format width `:0>w`). -/
def padLeftZero (w : Nat) (bs : Bytes) : Bytes :=
  List.replicate (w - bs.length) 48 ++ bs

/-- The all-zero 32-byte value `[0; 32]`. -/
def zero32 : Bytes := List.replicate 32 0

/-- 32-byte hash values (src/types.rs `[u8; 32]`). -/
abbrev Hash := Bytes

/-- Ed25519 public keys, identified with their 32-byte encoding
(src/types.rs `PublicKey`; `to_bytes`/`as_bytes` is the identity here). -/
abbrev PublicKey := Bytes

/-- ContractId (src/types.rs). -/
structure ContractId where
  id : Hash
deriving DecidableEq, Repr

/-- Address (src/types.rs). -/
inductive Address
  | wallet (pk : PublicKey)
  | contract (cid : ContractId)
deriving DecidableEq, Repr

/-- TransactionPayload (src/types.rs). -/
inductive TransactionPayload
  | transfer (amount : Nat)
  | contractDeploy (wasm_bytes : Bytes)
  | contractCall (method : String) (args : Bytes)
  | data (d : Bytes)
deriving DecidableEq, Repr

/-- Transaction (src/types.rs).  The signature is carried as opaque bytes; its
verification is abstracted by a boolean parameter where needed. -/
structure Transaction where
  hash : Hash
  sender : PublicKey
  nonce : Nat
  timestamp : Nat
  recipient : Address
  payload : TransactionPayload
  signature : Bytes
  gas_limit : Nat
  priority : Nat
  metadata : Option (List (String × String))
deriving DecidableEq, Repr

/-- Block (src/types.rs). -/
structure Block where
  index : Nat
  timestamp : Nat
  prev_hash : Hash
  hash : Hash
  nonce : Nat
  transactions : List Transaction
  metadata : Option (List (String × String))
deriving DecidableEq, Repr

/-- The fields fed to `Block::calculate_hash` (src/types.rs:303-323): every
block field except `hash` itself. -/
structure BlockHashInput where
  index : Nat
  timestamp : Nat
  prev_hash : Hash
  nonce : Nat
  transactions : List Transaction
  metadata : Option (List (String × String))
deriving DecidableEq

/-- Input of `Block::calculate_hash` for a given block. -/
def hashInput (b : Block) : BlockHashInput :=
  ⟨b.index, b.timestamp, b.prev_hash, b.nonce, b.transactions, b.metadata⟩

/-- Abstract model of SHA-256 over the canonical block encoding. -/
abbrev BlockHashFn := BlockHashInput → Hash

/-- Abstract model of SHA-256 over `deployer_pubkey || wasm_bytes`
(src/contracts.rs:80-84). -/
abbrev ContractHashFn := Bytes → Hash

/-- Account (src/types.rs). -/
inductive Account
  | wallet (balance : Nat) (nonce : Nat)
  | contract (code_hash : Hash) (storage_root_hash : Hash) (nonce : Nat)
deriving DecidableEq, Repr

/-- Account::nonce (src/types.rs:279-284). -/
def Account.nonce : Account → Nat
  | .wallet _ n => n
  | .contract _ _ n => n

/-- Account::set_nonce (src/types.rs:286-291). -/
def Account.set_nonce : Account → Nat → Account
  | .wallet b _, n => .wallet b n
  | .contract c s _, n => .contract c s n

/-- ChainState (src/types.rs). -/
structure ChainState where
  latest_block_hash : Hash
  latest_block_index : Nat
  accounts_root_hash : Hash
  total_supply : Nat
deriving DecidableEq, Repr

/-! ## Storage model

`SledStorage` (src/storage.rs) opens eight named trees plus the database's
default keyspace.  Values are modelled as a tagged sum `Val` standing for the
bincode encoding of the stored object (bincode round-trips, so distinct
objects have distinct encodings and a read of the wrong flavour fails to
deserialize, here `none`).  Keys are byte strings, exactly as in the source. -/

/-- A stored value, standing for its bincode encoding. -/
inductive Val
  | block (b : Block)
  | tx (t : Transaction)
  | account (a : Account)
  | chainState (cs : ChainState)
  | bytes (bs : Bytes)
deriving DecidableEq, Repr

def Val.toBlock : Val → Option Block
  | .block b => some b
  | _ => none

def Val.toTx : Val → Option Transaction
  | .tx t => some t
  | _ => none

def Val.toAccount : Val → Option Account
  | .account a => some a
  | _ => none

def Val.toChainState : Val → Option ChainState
  | .chainState cs => some cs
  | _ => none

/-- One sled keyspace: an association list from keys to values. -/
abbrev Tree := List (Bytes × Val)

/-- Key lookup (sled `Tree::get`). -/
def treeGet : Tree → Bytes → Option Val
  | [], _ => none
  | (k', v) :: rest, k => if k' = k then some v else treeGet rest k

/-- Insert-or-overwrite (sled `Tree::insert`). -/
def treeInsert : Tree → Bytes → Val → Tree
  | [], k, v => [(k, v)]
  | (k', v') :: rest, k, v =>
    if k' = k then (k, v) :: rest else (k', v') :: treeInsert rest k v

/-- Key removal (sled `Tree::remove`). -/
def treeRemove : Tree → Bytes → Tree
  | [], _ => []
  | (k', v') :: rest, k =>
    if k' = k then rest else (k', v') :: treeRemove rest k

/-- The sled database as seen through `SledStorage` (src/storage.rs:130-157):
the eight named trees plus the default keyspace that `sled::Db` itself
dereferences to. -/
structure Store where
  defaultTree : Tree
  blocks : Tree
  transactions : Tree
  mempool : Tree
  accounts : Tree
  contract_code : Tree
  contract_storage : Tree
  chain_state : Tree
  tx_by_block : Tree
deriving DecidableEq, Repr

/-- A freshly opened, empty database. -/
def Store.empty : Store := ⟨[], [], [], [], [], [], [], [], []⟩

/-- StorageOperation (src/storage.rs:125-128).  The payload of a put is the
already-serialized value. -/
inductive StorageOperation
  | put (key : Bytes) (value : Val)
  | del (key : Bytes)
deriving DecidableEq, Repr

/-- StorageBatch (src/storage.rs:120-123). -/
structure StorageBatch where
  ops : List StorageOperation
deriving DecidableEq, Repr

/-- Sequential application of batch operations to one tree. -/
def applyOps : Tree → List StorageOperation → Tree
  | t, [] => t
  | t, .put k v :: rest => applyOps (treeInsert t k v) rest
  | t, .del k :: rest => applyOps (treeRemove t k) rest

/-- bincode serialization of a `[u8; 32]` key: the raw 32 bytes. -/
def serializeKeyHash (h : Hash) : Bytes := h

/-- bincode serialization of a `PublicKey` key: `serialize_bytes` emits a
u64 length prefix followed by the raw 32 bytes (src/types.rs:65-72). -/
def serializeKeyPk (pk : PublicKey) : Bytes := u64le pk.length ++ pk

/-- bincode serialization of a `&str` key: u64 length prefix plus UTF-8. -/
def serializeKeyStr (s : String) : Bytes := u64le (strBytes s).length ++ strBytes s

/-- Secondary block key `format!("height:{:0>20}", height)`
(src/storage.rs:183,208). -/
def heightKey (h : Nat) : Bytes := strBytes "height:" ++ padLeftZero 20 (natDecimal h)

/-- Transaction index key
`format!("block_tx:{}:{}:{:0>10}", hex(block_hash), hex(tx_hash), i)`
(src/storage.rs:244-249). -/
def indexKey (blockHash : Hash) (txHash : Hash) (i : Nat) : Bytes :=
  strBytes "block_tx:" ++ hexBytes blockHash ++ [58] ++ hexBytes txHash ++ [58] ++
    padLeftZero 10 (natDecimal i)

namespace SledStorage

/-- SledStorage::get_block (src/storage.rs:187-190): reads the `blocks` tree
under the raw hash key. -/
def get_block (s : Store) (h : Hash) : Option Block :=
  (treeGet s.blocks (serializeKeyHash h)).bind Val.toBlock

/-- SledStorage::get_block_by_height (src/storage.rs:205-210). -/
def get_block_by_height (s : Store) (height : Nat) : Option Block :=
  (treeGet s.blocks (heightKey height)).bind Val.toBlock

/-- SledStorage::get_transaction (src/storage.rs:218-221). -/
def get_transaction (s : Store) (txHash : Hash) : Option Transaction :=
  (treeGet s.transactions (serializeKeyHash txHash)).bind Val.toTx

/-- SledStorage::get_account (src/storage.rs:289-292): key is the raw
32 public-key bytes. -/
def get_account (s : Store) (pk : PublicKey) : Option Account :=
  (treeGet s.accounts pk).bind Val.toAccount

/-- SledStorage::get_chain_state (src/storage.rs:305-308): reads the
`chain_state` tree under the raw key `"global:current"`. -/
def get_chain_state (s : Store) : Option ChainState :=
  (treeGet s.chain_state (strBytes "global:current")).bind Val.toChainState

/-- SledStorage::index_transaction (src/storage.rs:238-252): a direct insert
into the `tx_by_block` tree, outside any batch. -/
def index_transaction (s : Store) (txHash : Hash) (blockHash : Hash) (i : Nat) : Store :=
  { s with tx_by_block := treeInsert s.tx_by_block (indexKey blockHash txHash i) (.bytes txHash) }

/-- SledStorage::put_contract_code (src/storage.rs:310-317). -/
def put_contract_code (s : Store) (cid : ContractId) (wasm : Bytes) : Store :=
  { s with contract_code := treeInsert s.contract_code cid.id (.bytes wasm) }

/-- SledStorage::apply_batch (src/storage.rs:355-369): the batch is applied
via `self.db.apply_batch`, i.e. to the database's default keyspace, not to
any of the named trees. -/
def apply_batch (s : Store) (batch : StorageBatch) : Store :=
  { s with defaultTree := applyOps s.defaultTree batch.ops }

end SledStorage

/-! ## Contract engine

`BaaLSContractEngine` (src/contracts.rs).  `deploy_contract` derives the
contract id from `SHA-256(deployer || wasm)` (abstracted by `ch`) and stores
the code directly through the storage handle; `call_contract` is a stub that
returns an empty result and touches nothing. -/

namespace BaaLSContractEngine

/-- BaaLSContractEngine::deploy_contract (src/contracts.rs:71-100), in the
`apply_block` call path where `init_payload` is `None` and the gas limit is
ignored.  Returns the new contract id together with the mutated store. -/
def deploy_contract (ch : ContractHashFn) (deployer : PublicKey) (wasm : Bytes)
    (s : Store) : ContractId × Store :=
  let cid : ContractId := ⟨ch (deployer ++ wasm)⟩
  (cid, SledStorage.put_contract_code s cid wasm)

/-- BaaLSContractEngine::call_contract (src/contracts.rs:102-112): returns
`Ok(Vec::new())` and performs no storage access. -/
def call_contract (s : Store) : Bytes × Store := ([], s)

end BaaLSContractEngine

/-! ## Ledger -/

/-- Reasons carried by `LedgerError::StateTransition` message strings
(src/ledger.rs:172,177,183). -/
inductive TransitionReason
  | senderNotWallet
  | transferToContract
  | recipientNotWallet
deriving DecidableEq, Repr

/-- LedgerError (src/ledger.rs:9-37), restricted to the variants reachable in
the modelled paths.  `invalidNonce` carries the sender, the expected and the
actual nonce, exactly as `InvalidNonce(format!(..), expected, got)`. -/
inductive LedgerError
  | storageError
  | accountNotFound (pk : PublicKey)
  | invalidNonce (pk : PublicKey) (expected : Nat) (got : Nat)
  | insufficientBalance (pk : PublicKey)
  | stateTransition (r : TransitionReason)
  | invalidTransactionPayload
deriving DecidableEq, Repr

namespace Ledger

/-- The genesis block before hash assignment (src/ledger.rs:57-65). -/
def genesis_block0 : Block :=
  { index := 0, timestamp := 0, prev_hash := zero32, hash := zero32,
    nonce := 0, transactions := [], metadata := none }

/-- Ledger::initialize_chain (src/ledger.rs:49-91).  If a chain state is
already readable it returns without change; otherwise it builds the genesis
block, the initial chain state, and commits both through `apply_batch` under
bincode-serialized keys. -/
def initialize_chain (hf : BlockHashFn) (s : Store) : Store :=
  match SledStorage.get_chain_state s with
  | some _ => s
  | none =>
    let genesisHash := hf (hashInput genesis_block0)
    let genesis : Block := { genesis_block0 with hash := genesisHash }
    let initialChainState : ChainState :=
      { latest_block_hash := genesisHash, latest_block_index := 0,
        accounts_root_hash := zero32, total_supply := 0 }
    let batch : StorageBatch :=
      ⟨[.put (serializeKeyHash genesis.hash) (.block genesis),
        .put (serializeKeyStr "global:current") (.chainState initialChainState)]⟩
    SledStorage.apply_batch s batch

/-- In-memory state threaded through the transaction loop of
`Ledger::apply_block`: the buffered account mutations `accounts_to_update`
(a BTreeMap), the staged batch operations, and the storage handle (mutated
directly by contract deployment). -/
structure TxLoopState where
  updates : List (PublicKey × Account)
  batch : List StorageOperation
  store : Store
deriving DecidableEq, Repr

/-- BTreeMap::insert on the buffered updates: overwrite in place or append. -/
def upsert : List (PublicKey × Account) → PublicKey → Account → List (PublicKey × Account)
  | [], k, v => [(k, v)]
  | (k', v') :: rest, k, v =>
    if k' = k then (k, v) :: rest else (k', v') :: upsert rest k v

/-- BTreeMap::get on the buffered updates. -/
def lookupAcc : List (PublicKey × Account) → PublicKey → Option Account
  | [], _ => none
  | (k', v') :: rest, k => if k' = k then some v' else lookupAcc rest k

/-- Byte-string comparison, as BTreeMap orders `PublicKey` keys
(src/types.rs:147-151). -/
def bytesLt : Bytes → Bytes → Bool
  | [], [] => false
  | [], _ :: _ => true
  | _ :: _, [] => false
  | a :: as, b :: bs => if a < b then true else if b < a then false else bytesLt as bs

/-- Insert into a key-sorted update list. -/
def sortedInsert (p : PublicKey × Account) :
    List (PublicKey × Account) → List (PublicKey × Account)
  | [] => [p]
  | q :: rest => if bytesLt p.1 q.1 then p :: q :: rest else q :: sortedInsert p rest

/-- Key-sorted view of the buffered updates, matching BTreeMap iteration
order in the flush loop (src/ledger.rs:234-239). -/
def sortByKey : List (PublicKey × Account) → List (PublicKey × Account)
  | [] => []
  | p :: rest => sortedInsert p (sortByKey rest)

/-- The payload dispatch of `Ledger::apply_block` (src/ledger.rs:164-227) for
one transaction.  `sender1` is the sender account already nonce-bumped and
inserted into `st.updates` (the source re-reads it from `accounts_to_update`
via `get_mut(..).unwrap()`, which yields exactly the entry just inserted).
Note that the transfer arm loads the recipient from storage
(src/ledger.rs:175-176), never from the buffered updates. -/
def dispatchPayload (ch : ContractHashFn) (tx : Transaction) (sender1 : Account)
    (st : TxLoopState) : Except LedgerError TxLoopState :=
  match tx.payload with
  | .transfer amount =>
    match sender1 with
    | .contract _ _ _ => .error (.stateTransition .senderNotWallet)
    | .wallet balance n =>
      if balance < amount then .error (.insufficientBalance tx.sender)
      else
        let updates2 := upsert st.updates tx.sender (.wallet (balance - amount) n)
        match tx.recipient with
        | .contract _ => .error (.stateTransition .transferToContract)
        | .wallet rpk =>
          match SledStorage.get_account st.store rpk with
          | some (.wallet rbal rn) =>
            .ok { st with updates := upsert updates2 rpk (.wallet (rbal + amount) rn) }
          | some (.contract _ _ _) => .error (.stateTransition .recipientNotWallet)
          | none =>
            .ok { st with updates := upsert updates2 rpk (.wallet amount 0) }
  | .contractDeploy wasm =>
    let (cid, store') := BaaLSContractEngine.deploy_contract ch tx.sender wasm st.store
    .ok { st with store := store',
                  updates := upsert st.updates tx.sender (.contract cid.id zero32 sender1.nonce) }
  | .contractCall _ _ =>
    match tx.recipient with
    | .contract _ => .ok st
    | .wallet _ => .error .invalidTransactionPayload
  | .data _ => .ok st

/-- One iteration of the transaction loop of `Ledger::apply_block`
(src/ledger.rs:147-231): load the sender from storage (never from the
buffered updates), check and bump the nonce, dispatch on the payload, then
stage the mempool deletion. -/
def applyTx (ch : ContractHashFn) (st : TxLoopState) (tx : Transaction) :
    Except LedgerError TxLoopState :=
  match SledStorage.get_account st.store tx.sender with
  | none => .error (.accountNotFound tx.sender)
  | some sender0 =>
    if sender0.nonce + 1 ≠ tx.nonce then
      .error (.invalidNonce tx.sender (sender0.nonce + 1) tx.nonce)
    else
      let sender1 := sender0.set_nonce (sender0.nonce + 1)
      match dispatchPayload ch tx sender1 { st with updates := upsert st.updates tx.sender sender1 } with
      | .error e => .error e
      | .ok st' => .ok { st' with batch := st'.batch ++ [.del (serializeKeyHash tx.hash)] }

/-- The transaction loop of `Ledger::apply_block`.  An error carries the
store at the point of failure (contract deployments earlier in the block
have already written through the storage handle). -/
def applyTxs (ch : ContractHashFn) : List Transaction → TxLoopState →
    Except (LedgerError × Store) TxLoopState
  | [], st => .ok st
  | tx :: rest, st =>
    match applyTx ch st tx with
    | .error e => .error (e, st.store)
    | .ok st' => applyTxs ch rest st'

/-- Direct `index_transaction` calls for each transaction of the block
(src/ledger.rs:250-253), performed before `apply_batch`. -/
def indexTxs (blockHash : Hash) : Store → List Transaction → Nat → Store
  | s, [], _ => s
  | s, tx :: rest, i =>
    indexTxs blockHash (SledStorage.index_transaction s tx.hash blockHash i) rest (i + 1)

/-- Outcome of `Ledger::apply_block`: the returned result, the final value of
the caller's `&mut ChainState`, and the final store. -/
structure ApplyOutcome where
  err : Option LedgerError
  cs : ChainState
  store : Store
deriving DecidableEq, Repr

/-- Ledger::apply_block (src/ledger.rs:139-257).  `commitOk` injects the
success or failure of the final `apply_batch` call (the only fallible
storage operation modelled; on failure sled leaves the batch unapplied).
The chain-state mutation (src/ledger.rs:242-243) and the direct
`index_transaction` writes (src/ledger.rs:251-253) both happen before the
commit, so they survive a commit failure. -/
def apply_block (ch : ContractHashFn) (commitOk : Bool) (b : Block)
    (cs : ChainState) (s : Store) : ApplyOutcome :=
  match applyTxs ch b.transactions ⟨[], [], s⟩ with
  | .error (e, s') => ⟨some e, cs, s'⟩
  | .ok st =>
    let batch1 := st.batch ++
      (sortByKey st.updates).map (fun p => .put (serializeKeyPk p.1) (.account p.2))
    let cs' := { cs with latest_block_hash := b.hash, latest_block_index := b.index }
    let batch2 := batch1 ++ [.put (serializeKeyStr "global:current") (.chainState cs')]
    let s1 := indexTxs b.hash st.store b.transactions 0
    if commitOk then ⟨none, cs', SledStorage.apply_batch s1 ⟨batch2⟩⟩
    else ⟨some .storageError, cs', s1⟩

end Ledger

/-! ## Consensus -/

/-- ConsensusError (src/consensus.rs:6-22). -/
inductive ConsensusError
  | validationFailed
  | invalidSignature
  | unauthorizedSigner
  | invalidTimestamp
  | mismatchedPrevHash
  | invalidNonce
  | noPendingTransactions
deriving DecidableEq, Repr

namespace PoAConsensus

/-- PoAConsensus::validate_block (src/consensus.rs:47-53): the body is a stub
that returns `Ok(())` for every block. -/
def validate_block (_b : Block) : Except ConsensusError Unit := .ok ()

/-- The `ConsensusEngine` impl of `validate_block` (src/consensus.rs:70-72),
which ignores the chain state and delegates to the stub. -/
def validate_block_engine (b : Block) (_cs : ChainState) : Except ConsensusError Unit :=
  validate_block b

/-- PoAConsensus::generate_block (src/consensus.rs:74-98).  The timestamp is
`prev_block.timestamp + 1`; no clock is consulted. -/
def generate_block (hf : BlockHashFn) (pending : List Transaction) (prev : Block) :
    Except ConsensusError Block :=
  if pending.isEmpty then .error .noPendingTransactions
  else
    let b0 : Block :=
      { index := prev.index + 1, timestamp := prev.timestamp + 1,
        prev_hash := prev.hash, hash := zero32, nonce := 0,
        transactions := pending, metadata := none }
    .ok { b0 with hash := hf (hashInput b0) }

end PoAConsensus

/-! ## Runtime -/

/-- The `RuntimeError::InvalidTransaction` cases raised by
`Runtime::submit_transaction` (src/runtime.rs:91-116); the message strings
are abstracted to the data they format. -/
inductive RuntimeError
  | invalidSignature
  | invalidNonce (storedNonce : Nat) (got : Nat)
deriving DecidableEq, Repr

namespace Runtime

/-- Runtime::submit_transaction (src/runtime.rs:91-116).  `verify` abstracts
`Transaction::verify_signature`.  Returns the error (if any) together with
the mempool after the call; the push happens only after both checks pass. -/
def submit_transaction (verify : Transaction → Bool) (s : Store)
    (mempool : List Transaction) (tx : Transaction) :
    Option RuntimeError × List Transaction :=
  if !(verify tx) then (some .invalidSignature, mempool)
  else
    let senderAccount := (SledStorage.get_account s tx.sender).getD (.wallet 0 0)
    if tx.nonce ≤ senderAccount.nonce then
      (some (.invalidNonce senderAccount.nonce tx.nonce), mempool)
    else
      (none, mempool ++ [tx])

end Runtime

/-! ## Concrete fixtures

Fixed keypairs, accounts, transactions and blocks used to evaluate the model
on explicit inputs.  `hf0`/`ch0` are concrete instantiations of the abstract
hash parameters, and `verifyAll` of the signature verifier. -/

def hf0 : BlockHashFn := fun _ => zero32

def ch0 : ContractHashFn := fun _ => zero32

def verifyAll : Transaction → Bool := fun _ => true

def pkA : PublicKey := List.replicate 32 1

def pkB : PublicKey := List.replicate 32 2

def sig0 : Bytes := List.replicate 64 0

/-- Pre-seeded store: account A is a wallet with balance 100 and nonce 0. -/
def store0 : Store := { Store.empty with accounts := [(pkA, .account (.wallet 100 0))] }

/-- A chain state at height 0. -/
def cs0 : ChainState :=
  { latest_block_hash := zero32, latest_block_index := 0,
    accounts_root_hash := zero32, total_supply := 0 }

/-- Transfer of 40 from A to B with nonce 1. -/
def txT1 : Transaction :=
  { hash := List.replicate 32 7, sender := pkA, nonce := 1, timestamp := 100,
    recipient := .wallet pkB, payload := .transfer 40, signature := sig0,
    gas_limit := 0, priority := 0, metadata := none }

/-- Block at height 1 containing the single transfer `txT1`. -/
def blk1 : Block :=
  { index := 1, timestamp := 100, prev_hash := zero32, hash := List.replicate 32 9,
    nonce := 0, transactions := [txT1], metadata := none }

/-- Self-transfer: 40 from A back to A, nonce 1. -/
def txSelf : Transaction := { txT1 with recipient := .wallet pkA }

/-- Block at height 1 containing the single self-transfer. -/
def blkSelf : Block := { blk1 with transactions := [txSelf] }

/-- First of two transfers from A in one block: 10 to B, nonce 1. -/
def txN1 : Transaction := { txT1 with payload := .transfer 10 }

/-- Second transfer from A in the same block: 10 to B, nonce 2. -/
def txN2 : Transaction :=
  { txT1 with hash := List.replicate 32 8, nonce := 2, payload := .transfer 10 }

/-- Block carrying both transfers from A with nonces 1 and 2. -/
def blk2 : Block := { blk1 with transactions := [txN1, txN2] }

/-- A previous block at height 0 with timestamp 0. -/
def prev0 : Block :=
  { index := 0, timestamp := 0, prev_hash := zero32, hash := zero32,
    nonce := 0, transactions := [], metadata := none }

/-! ## Claims -/

/-- Inserting a key and reading it back yields the inserted value. -/
theorem treeGet_treeInsert_self (t : Tree) (k : Bytes) (v : Val) :
    treeGet (treeInsert t k v) k = some v := by
  induction t with
  | nil => simp [treeInsert, treeGet]
  | cons p rest ih =>
    obtain ⟨k', v'⟩ := p
    by_cases h : k' = k
    · simp [treeInsert, treeGet, h]
    · simp [treeInsert, treeGet, h, ih]

/-- C1: the claim says that from a fresh store `initialize_chain` commits the
genesis block and initial chain state so that `get_chain_state` returns them.
In the code the commit goes through `apply_batch`, which sled applies to the
database's default keyspace under bincode-serialized keys, while
`get_chain_state` and `get_block` read the `chain_state` and `blocks` trees
under raw keys: both reads miss for every hash function.  The third conjunct
locates the lost write: the initial chain state sits in the default keyspace
under the length-prefixed key. -/
theorem c1_initialize_chain_write_lost (hf : BlockHashFn) :
    SledStorage.get_chain_state (Ledger.initialize_chain hf Store.empty) = none ∧
    SledStorage.get_block (Ledger.initialize_chain hf Store.empty)
      (hf (hashInput Ledger.genesis_block0)) = none ∧
    treeGet (Ledger.initialize_chain hf Store.empty).defaultTree
        (serializeKeyStr "global:current") =
      some (.chainState
        { latest_block_hash := hf (hashInput Ledger.genesis_block0),
          latest_block_index := 0, accounts_root_hash := zero32, total_supply := 0 }) := by
  refine ⟨rfl, rfl, ?_⟩
  show treeGet
      (treeInsert
        (treeInsert [] (serializeKeyHash (hf (hashInput Ledger.genesis_block0)))
          (.block { Ledger.genesis_block0 with hash := hf (hashInput Ledger.genesis_block0) }))
        (serializeKeyStr "global:current")
        (.chainState
          { latest_block_hash := hf (hashInput Ledger.genesis_block0),
            latest_block_index := 0, accounts_root_hash := zero32, total_supply := 0 }))
      (serializeKeyStr "global:current") = _
  exact treeGet_treeInsert_self _ _ _

/-- C2: the claim says `apply_block` is atomic, with a failed commit leaving
the store and the cached chain state untouched.  In the code the transaction
index entries are written directly to the `tx_by_block` tree before the
commit, and the caller's `ChainState` is advanced before the commit too; when
the commit fails both survive: here the store has changed (one `tx_by_block`
entry appeared) and the chain state has advanced from height 0 to height 1. -/
theorem c2_commit_failure_not_atomic :
    (Ledger.apply_block ch0 false blk1 cs0 store0).err = some .storageError ∧
    cs0.latest_block_index = 0 ∧
    (Ledger.apply_block ch0 false blk1 cs0 store0).cs.latest_block_index = 1 ∧
    (Ledger.apply_block ch0 false blk1 cs0 store0).cs.latest_block_hash = blk1.hash ∧
    (Ledger.apply_block ch0 false blk1 cs0 store0).store.tx_by_block ≠ store0.tx_by_block ∧
    (Ledger.apply_block ch0 false blk1 cs0 store0).store ≠ store0 := by decide

/-- C3: the claim says the committed batch contains the block under its hash
key and its height key and each transaction under the `transactions` tree,
making height lookups consistent.  In the code `apply_block` never stages any
block or transaction write: after a successful apply of `blk1` at height 1,
`get_block_by_height 1`, `get_block blk1.hash` and `get_transaction` all
return nothing although the chain state advanced to height 1. -/
theorem c3_block_never_persisted :
    (Ledger.apply_block ch0 true blk1 cs0 store0).err = none ∧
    (Ledger.apply_block ch0 true blk1 cs0 store0).cs.latest_block_index = 1 ∧
    SledStorage.get_block_by_height (Ledger.apply_block ch0 true blk1 cs0 store0).store 1
      = none ∧
    SledStorage.get_block (Ledger.apply_block ch0 true blk1 cs0 store0).store blk1.hash
      = none ∧
    SledStorage.get_transaction (Ledger.apply_block ch0 true blk1 cs0 store0).store txT1.hash
      = none := by decide

/-- C4: the claim says `apply_block` coalesces several transactions of one
sender by preferring the in-memory updates entry, so nonces stored+1 and
stored+2 in one block both apply.  In the code the sender is reloaded from
storage for every transaction (src/ledger.rs:149), so with A stored at
nonce 0 the second transfer (nonce 2) is rejected with
`InvalidNonce(expected 1, got 2)` and the whole block fails. -/
theorem c4_same_sender_second_tx_rejected :
    SledStorage.get_account store0 pkA = some (.wallet 100 0) ∧
    txN1.nonce = 1 ∧ txN2.nonce = 2 ∧
    (Ledger.apply_block ch0 true blk2 cs0 store0).err = some (.invalidNonce pkA 1 2) := by
  decide

/-- C5: the claim says transfers conserve the sum of sender and recipient
balances, including when the recipient equals the sender.  In the code the
recipient is reloaded from storage after the sender was debited only in the
in-memory updates, so a self-transfer of 40 from a wallet holding 100
overwrites the debited entry and commits a balance of 140 (and a reset
nonce): the staged account write creates 40 out of nothing. -/
theorem c5_self_transfer_breaks_conservation :
    SledStorage.get_account store0 pkA = some (.wallet 100 0) ∧
    txSelf.sender = pkA ∧ txSelf.recipient = .wallet pkA ∧
    txSelf.payload = .transfer 40 ∧
    (Ledger.apply_block ch0 true blkSelf cs0 store0).err = none ∧
    treeGet (Ledger.apply_block ch0 true blkSelf cs0 store0).store.defaultTree
      (serializeKeyPk pkA) = some (.account (.wallet 140 0)) := by decide

/-- A block whose timestamp (0) is not greater than `prevBlk5`'s (5) and
whose stored hash does not match the `hf0`-computed hash. -/
def blkBadTs : Block :=
  { index := 1, timestamp := 0, prev_hash := zero32, hash := List.replicate 32 5,
    nonce := 0, transactions := [], metadata := none }

/-- A previous block with timestamp 5. -/
def prevBlk5 : Block :=
  { index := 0, timestamp := 5, prev_hash := zero32, hash := zero32,
    nonce := 0, transactions := [], metadata := none }

/-- C6 counterexample: the claim says PoA `validate_block` re-derives the
hash, verifies the authority signature, and rejects any block whose timestamp
is not strictly greater than the previous block's.  Here is a block whose
timestamp (0) is not greater than the previous block's (5) and whose hash
does not match the recomputed one, yet `validate_block` accepts it. -/
theorem c6_counterexample_stub_accepts_bad_block :
    blkBadTs.timestamp ≤ prevBlk5.timestamp ∧
    blkBadTs.hash ≠ hf0 (hashInput blkBadTs) ∧
    PoAConsensus.validate_block_engine blkBadTs cs0 = .ok () ∧
    PoAConsensus.validate_block blkBadTs = .ok () :=
  ⟨by decide, by decide, rfl, rfl⟩

/-- C6 (amended): `PoAConsensus::validate_block` is a no-op stub: it returns
ok for every block and every chain state, performing no hash re-derivation,
no signature verification and no timestamp check (the block type carries no
authority signature at all). -/
theorem c6_validate_block_accepts_everything (b : Block) (cs : ChainState) :
    PoAConsensus.validate_block_engine b cs = .ok () ∧
    PoAConsensus.validate_block b = .ok () :=
  ⟨rfl, rfl⟩

/-- The result timestamp of a block-generation outcome. -/
def genTimestamp : Except ConsensusError Block → Option Nat
  | .ok b => some b.timestamp
  | .error _ => none

/-- C7 counterexample: the claim says the generated timestamp is
`max(now_seconds, prev.timestamp + 1)`.  The code consults no clock: from a
previous block with timestamp 0 it always produces timestamp 1, which differs
from the claimed value whenever the wall clock exceeds 1 — at `now = 5` the
claim demands 5. -/
theorem c7_counterexample_timestamp_ignores_clock :
    genTimestamp (PoAConsensus.generate_block hf0 [txT1] prev0) = some 1 ∧
    (1 : Nat) ≠ max 5 (prev0.timestamp + 1) := by decide

/-- The block that PoA block generation returns on a non-empty pending
slice, written from the amended claim's words: index `prev.index + 1`,
timestamp `prev.timestamp + 1`, prev_hash `prev.hash`, the pending
transactions, nonce 0, no metadata, and the hash recomputed over exactly
those fields. -/
def specGeneratedBlock (hf : BlockHashFn) (pending : List Transaction) (prev : Block) :
    Block :=
  { index := prev.index + 1, timestamp := prev.timestamp + 1, prev_hash := prev.hash,
    hash := hf ⟨prev.index + 1, prev.timestamp + 1, prev.hash, 0, pending, none⟩,
    nonce := 0, transactions := pending, metadata := none }

/-- C7 (amended): `generate_block` fails with `NoPendingTransactions` on an
empty pending slice; otherwise it returns the block with index
`prev.index + 1`, timestamp `prev.timestamp + 1` (not
`max(now, prev.timestamp + 1)`: no clock is read), prev_hash `prev.hash`,
the pending transactions, nonce 0, and hash equal to the hash recomputed
over the returned block's fields. -/
theorem c7_generate_block_assembly (hf : BlockHashFn) (pending : List Transaction)
    (prev : Block) :
    (pending = [] →
      PoAConsensus.generate_block hf pending prev = .error .noPendingTransactions) ∧
    (pending ≠ [] →
      PoAConsensus.generate_block hf pending prev = .ok (specGeneratedBlock hf pending prev) ∧
      (specGeneratedBlock hf pending prev).index = prev.index + 1 ∧
      (specGeneratedBlock hf pending prev).timestamp = prev.timestamp + 1 ∧
      (specGeneratedBlock hf pending prev).prev_hash = prev.hash ∧
      (specGeneratedBlock hf pending prev).transactions = pending ∧
      (specGeneratedBlock hf pending prev).nonce = 0 ∧
      (specGeneratedBlock hf pending prev).hash
        = hf (hashInput (specGeneratedBlock hf pending prev))) := by
  constructor
  · intro he
    subst he
    rfl
  · intro hne
    cases pending with
    | nil => exact absurd rfl hne
    | cons t rest =>
      exact ⟨rfl, rfl, rfl, rfl, rfl, rfl, rfl⟩

/-- C7 witness: the amended theorem applied to the concrete pending slice
`[txT1]` and previous block `prev0`. -/
theorem c7_generate_block_assembly_witness :
    PoAConsensus.generate_block hf0 [txT1] prev0 = .ok (specGeneratedBlock hf0 [txT1] prev0) ∧
    (specGeneratedBlock hf0 [txT1] prev0).index = prev0.index + 1 ∧
    (specGeneratedBlock hf0 [txT1] prev0).timestamp = prev0.timestamp + 1 ∧
    (specGeneratedBlock hf0 [txT1] prev0).prev_hash = prev0.hash ∧
    (specGeneratedBlock hf0 [txT1] prev0).transactions = [txT1] ∧
    (specGeneratedBlock hf0 [txT1] prev0).nonce = 0 ∧
    (specGeneratedBlock hf0 [txT1] prev0).hash
      = hf0 (hashInput (specGeneratedBlock hf0 [txT1] prev0)) :=
  (c7_generate_block_assembly hf0 [txT1] prev0).2 (List.cons_ne_nil _ _)

/-- Writing a key into the buffered updates and reading it back yields the
written account. -/
theorem lookupAcc_upsert_self (l : List (PublicKey × Account)) (k : PublicKey)
    (v : Account) :
    Ledger.lookupAcc (Ledger.upsert l k v) k = some v := by
  induction l with
  | nil => simp [Ledger.upsert, Ledger.lookupAcc]
  | cons p rest ih =>
    obtain ⟨k', v'⟩ := p
    by_cases hk : k' = k
    · simp [Ledger.upsert, Ledger.lookupAcc, hk]
    · simp [Ledger.upsert, Ledger.lookupAcc, hk, ih]

/-- Payload dispatch can fail with insufficient balance, a wrong account
kind, or a malformed payload, but never with `InvalidNonce`: that error
arises only from the nonce check preceding the dispatch. -/
theorem dispatchPayload_ne_invalidNonce (ch : ContractHashFn) (tx : Transaction)
    (sender1 : Account) (st : Ledger.TxLoopState) (pk : PublicKey)
    (e g : Nat) :
    Ledger.dispatchPayload ch tx sender1 st ≠ .error (.invalidNonce pk e g) := by
  unfold Ledger.dispatchPayload
  cases hp : tx.payload with
  | transfer amount =>
    cases sender1 with
    | contract c s n => simp
    | wallet bal n =>
      by_cases hb : bal < amount
      · simp [hb]
      · cases hr : tx.recipient with
        | contract cid => simp [hb]
        | wallet rpk =>
          cases ha : SledStorage.get_account st.store rpk with
          | none => simp [hb, ha]
          | some racct => cases racct <;> simp [hb, ha]
  | contractDeploy wasm => simp
  | contractCall m args => cases tx.recipient <;> simp
  | data d => simp

/-- C8: for every transaction reaching the per-transaction step of
`apply_block` whose sender resolves (from storage) to an account with
nonce `n`: if `tx.nonce ≠ n + 1` the step fails with
`InvalidNonce(sender, expected n + 1, got tx.nonce)` — and `InvalidNonce`
arises exactly in that case — while if `tx.nonce = n + 1` the step advances
the sender's buffered nonce to `n + 1` and only then dispatches on the
payload (followed by staging the mempool deletion). -/
theorem c8_apply_block_nonce_check (ch : ContractHashFn) (st : Ledger.TxLoopState)
    (tx : Transaction) (acct : Account) (n : Nat)
    (hacct : SledStorage.get_account st.store tx.sender = some acct)
    (hn : acct.nonce = n) :
    (tx.nonce ≠ n + 1 →
      Ledger.applyTx ch st tx = .error (.invalidNonce tx.sender (n + 1) tx.nonce)) ∧
    ((∃ pk e g, Ledger.applyTx ch st tx = .error (.invalidNonce pk e g)) ↔
      tx.nonce ≠ n + 1) ∧
    (tx.nonce = n + 1 →
      Ledger.lookupAcc (Ledger.upsert st.updates tx.sender (acct.set_nonce (n + 1)))
          tx.sender = some (acct.set_nonce (n + 1)) ∧
      (acct.set_nonce (n + 1)).nonce = n + 1 ∧
      Ledger.applyTx ch st tx =
        (Ledger.dispatchPayload ch tx (acct.set_nonce (n + 1))
            { st with updates := Ledger.upsert st.updates tx.sender (acct.set_nonce (n + 1)) }).map
          (fun st' => { st' with batch := st'.batch ++ [.del (serializeKeyHash tx.hash)] })) := by
  subst hn
  have hstep : ∀ _ : tx.nonce = acct.nonce + 1,
      Ledger.applyTx ch st tx =
        (Ledger.dispatchPayload ch tx (acct.set_nonce (acct.nonce + 1))
            { st with
              updates := Ledger.upsert st.updates tx.sender
                (acct.set_nonce (acct.nonce + 1)) }).map
          (fun st' => { st' with batch := st'.batch ++ [.del (serializeKeyHash tx.hash)] }) := by
    intro h
    unfold Ledger.applyTx
    rw [hacct]
    dsimp only
    rw [if_neg (by omega)]
    cases hd : Ledger.dispatchPayload ch tx (acct.set_nonce (acct.nonce + 1))
        { st with
          updates := Ledger.upsert st.updates tx.sender (acct.set_nonce (acct.nonce + 1)) } <;>
      rfl
  have herr : ∀ _ : tx.nonce ≠ acct.nonce + 1,
      Ledger.applyTx ch st tx = .error (.invalidNonce tx.sender (acct.nonce + 1) tx.nonce) := by
    intro h
    unfold Ledger.applyTx
    rw [hacct]
    dsimp only
    rw [if_pos (by omega)]
  refine ⟨herr, ⟨?_, ?_⟩, ?_⟩
  · rintro ⟨pk, e, g, hx⟩
    intro hcontra
    rw [hstep hcontra] at hx
    cases hd : Ledger.dispatchPayload ch tx (acct.set_nonce (acct.nonce + 1))
        { st with
          updates := Ledger.upsert st.updates tx.sender (acct.set_nonce (acct.nonce + 1)) } with
    | ok st' => rw [hd] at hx; exact Except.noConfusion hx
    | error e' =>
      rw [hd] at hx
      simp only [Except.map] at hx
      have he' : e' = .invalidNonce pk e g := by
        injection hx
      exact dispatchPayload_ne_invalidNonce ch tx _ _ pk e g (hd.trans (by rw [he']))
  · intro h
    exact ⟨tx.sender, acct.nonce + 1, tx.nonce, herr h⟩
  · intro h
    exact ⟨lookupAcc_upsert_self _ _ _, by cases acct <;> rfl, hstep h⟩

/-- Transfer from A with nonce 5 while A's stored nonce is 0. -/
def txBadNonce : Transaction := { txT1 with nonce := 5 }

/-- C8 witness: the nonce-check theorem applied to a gap (stored nonce 0,
transaction nonce 5) rejects with expected 1, got 5. -/
theorem c8_apply_block_nonce_check_witness :
    Ledger.applyTx ch0 ⟨[], [], store0⟩ txBadNonce
      = .error (.invalidNonce pkA 1 5) :=
  (c8_apply_block_nonce_check ch0 ⟨[], [], store0⟩ txBadNonce (.wallet 100 0) 0
    (by decide) rfl).1 (by decide)

/-- C9: `submit_transaction` rejects exactly when the signature fails to
verify or the nonce is not strictly above the stored sender nonce (an absent
sender account counting as a wallet with balance 0 and nonce 0); acceptance
appends the transaction to the mempool and rejection leaves the mempool
unchanged. -/
theorem c9_submit_transaction_admission (verify : Transaction → Bool) (s : Store)
    (mempool : List Transaction) (tx : Transaction) :
    ((Runtime.submit_transaction verify s mempool tx).1 ≠ none ↔
      (verify tx = false ∨
        tx.nonce ≤ ((SledStorage.get_account s tx.sender).getD (.wallet 0 0)).nonce)) ∧
    ((Runtime.submit_transaction verify s mempool tx).1 = none →
      (Runtime.submit_transaction verify s mempool tx).2 = mempool ++ [tx]) ∧
    ((Runtime.submit_transaction verify s mempool tx).1 ≠ none →
      (Runtime.submit_transaction verify s mempool tx).2 = mempool) := by
  unfold Runtime.submit_transaction
  cases hv : verify tx with
  | false => simp
  | true =>
    by_cases hnn : tx.nonce ≤ ((SledStorage.get_account s tx.sender).getD (.wallet 0 0)).nonce
    · simp [hnn]
    · simp [hnn]

/-- C9 witness: with a passing verifier, the seeded store and the transfer
`txT1` (nonce 1 against stored nonce 0), admission succeeds and appends to
the empty mempool. -/
theorem c9_submit_transaction_admission_witness :
    (Runtime.submit_transaction verifyAll store0 [] txT1).1 = none ∧
    (Runtime.submit_transaction verifyAll store0 [] txT1).2 = [] ++ [txT1] :=
  ⟨by decide,
   (c9_submit_transaction_admission verifyAll store0 [] txT1).2.1 (by decide)⟩

/-- C10: `apply_block` leaves the `accounts_root_hash` and `total_supply`
fields of the caller's chain state exactly as they were, for every block
(hence every payload kind), every prior chain state, every store, and
whether or not the commit succeeds: only `latest_block_hash` and
`latest_block_index` are ever assigned. -/
theorem c10_apply_block_chain_state_frame (ch : ContractHashFn) (commitOk : Bool)
    (b : Block) (cs : ChainState) (s : Store) :
    (Ledger.apply_block ch commitOk b cs s).cs.accounts_root_hash
      = cs.accounts_root_hash ∧
    (Ledger.apply_block ch commitOk b cs s).cs.total_supply = cs.total_supply := by
  unfold Ledger.apply_block
  cases h : Ledger.applyTxs ch b.transactions ⟨[], [], s⟩ with
  | error p => obtain ⟨e, s'⟩ := p; simp
  | ok st => cases commitOk <;> simp

end BaaLS
